import Mathlib

/-!
Shallow embedding of the Stonk App core: the manual-entry normalizer, the
store document, the Plaid holdings sync, the portfolio merge, the Google
Sheets payload builder (all from server.js), and the CSV parser from
public/app.js.

Modelling conventions: a JavaScript number is `Option ℚ` — `some q` is a
finite value, `none` stands for NaN, plus or minus Infinity, or an absent or
unparsable input (everything whose Number() coercion is non-finite).
Run-time-generated identifiers (uuidv4) and timestamps (new Date()) are
passed in as explicit parameters. Fallible request handlers are modelled as
state-passing functions returning the persisted store together with an
`Except` response, the store being rewritten only on the success paths that
call writeDb.
-/

instance {ε α : Type} [DecidableEq ε] [DecidableEq α] : DecidableEq (Except ε α) := fun
  | Except.error e₁, Except.error e₂ =>
    if h : e₁ = e₂ then Decidable.isTrue (by rw [h])
    else Decidable.isFalse (by intro hc; injection hc; exact h (by assumption))
  | Except.error _, Except.ok _ => Decidable.isFalse (by intro hc; injection hc)
  | Except.ok _, Except.error _ => Decidable.isFalse (by intro hc; injection hc)
  | Except.ok a₁, Except.ok a₂ =>
    if h : a₁ = a₂ then Decidable.isTrue (by rw [h])
    else Decidable.isFalse (by intro hc; injection hc; exact h (by assumption))

/-- A JavaScript number after Number() coercion: finite rational, or `none`
for NaN, infinities and missing inputs. -/
abbrev JsNum := Option ℚ

/-- Embeds server.js toNumber: `Number(input)` with every non-finite result
replaced by 0. -/
def toNumber (input : JsNum) : ℚ := input.getD 0

/-- JavaScript multiplication: any non-finite operand yields a non-finite
result (NaN times anything is NaN, Infinity times a non-zero is infinite,
Infinity times zero is NaN — all collapse to `none` here). -/
def jsMul (a b : JsNum) : JsNum :=
  match a, b with
  | some x, some y => some (x * y)
  | _, _ => none

/-- Embeds the JavaScript idiom `x || d` for a string-or-missing value:
a missing or empty (falsy) string falls back to the default. -/
def jsOrStr (x : Option String) (d : String) : String :=
  match x with
  | some s => if s = "" then d else s
  | none => d

/-- Drops whitespace from both ends of a character list. -/
def trimChars (l : List Char) : List Char :=
  ((l.dropWhile Char.isWhitespace).reverse.dropWhile Char.isWhitespace).reverse

/-- Embeds JavaScript String.prototype.trim. -/
def strTrim (s : String) : String := String.mk (trimChars s.data)

/-- Embeds JavaScript String.prototype.toUpperCase (ASCII range). -/
def strUpper (s : String) : String := String.mk (s.data.map Char.toUpper)

/-- Splits a character list on a separator character; mirrors
String.prototype.split with a one-character separator. -/
def splitChars (sep : Char) : List Char → List (List Char)
  | [] => [[]]
  | c :: rest =>
    if c = sep then
      [] :: splitChars sep rest
    else
      match splitChars sep rest with
      | [] => [[c]]
      | piece :: pieces => (c :: piece) :: pieces

/-- Embeds JavaScript String.prototype.split with a one-character separator. -/
def strSplit (sep : Char) (s : String) : List String :=
  (splitChars sep s.data).map String.mk

/-- A raw manual-entry body as received by the server: each string field may
be absent, each numeric field is the Number() view of whatever was sent. -/
structure RawManualEntry where
  account : Option String
  symbol : Option String
  name : Option String
  quantity : JsNum
  price : JsNum
  costBasis : JsNum
  deriving DecidableEq

/-- A stored manual investment, as produced by normalizeManualEntry. -/
structure ManualRecord where
  id : String
  account : String
  symbol : String
  name : String
  quantity : JsNum
  price : JsNum
  costBasis : JsNum
  updatedAt : String
  deriving DecidableEq

/-- Embeds server.js normalizeManualEntry: trim the string fields, upper-case
the symbol, reject (return none) when account, symbol or name is empty after
trimming, otherwise build the record with Number()-coerced numeric fields. -/
def normalizeManualEntry (freshId now : String) (raw : RawManualEntry) : Option ManualRecord :=
  let account := strTrim (jsOrStr raw.account (""))
  let symbol := strUpper (strTrim (jsOrStr raw.symbol ("")))
  let name := strTrim (jsOrStr raw.name (""))
  if account = "" ∨ symbol = "" ∨ name = "" then
    none
  else
    some { id := freshId, account := account, symbol := symbol, name := name,
           quantity := some (toNumber raw.quantity), price := some (toNumber raw.price),
           costBasis := some (toNumber raw.costBasis), updatedAt := now }

/-- A stored Plaid item (linked account credential record). -/
structure PlaidItem where
  id : String
  institutionName : String
  accessToken : String
  createdAt : String
  deriving DecidableEq

/-- A stored canonical Plaid holding, as produced by the sync handler. -/
structure PlaidHolding where
  id : String
  itemId : String
  accountName : String
  symbol : String
  name : String
  quantity : JsNum
  price : JsNum
  value : JsNum
  costBasis : JsNum
  lastUpdated : String
  deriving DecidableEq

/-- The persisted db.json document. `manualInvestments` holds
`Option ManualRecord` because the add-manual handler pushes the result of
normalizeManualEntry without checking it for null. -/
structure Db where
  plaidItems : List PlaidItem
  plaidHoldings : List PlaidHolding
  manualInvestments : List (Option ManualRecord)
  lastSyncAt : Option String
  deriving DecidableEq

/-- A merged portfolio position, as built by mergedPositions. -/
structure MergedRow where
  id : String
  source : String
  account : String
  symbol : String
  name : String
  quantity : JsNum
  price : JsNum
  value : JsNum
  costBasis : JsNum
  lastUpdated : String
  deriving DecidableEq

/-- Embeds the Plaid branch of mergedPositions: one row per stored holding. -/
def plaidRow (holding : PlaidHolding) : MergedRow :=
  { id := holding.id, source := ("Plaid"), account := holding.accountName,
    symbol := holding.symbol, name := holding.name, quantity := holding.quantity,
    price := holding.price, value := holding.value, costBasis := holding.costBasis,
    lastUpdated := holding.lastUpdated }

/-- Embeds the manual branch of mergedPositions: value is derived as
quantity times price, never read from the record. -/
def manualRow (manual : ManualRecord) : MergedRow :=
  { id := manual.id, source := ("Manual"), account := manual.account,
    symbol := manual.symbol, name := manual.name, quantity := manual.quantity,
    price := manual.price, value := jsMul manual.quantity manual.price,
    costBasis := manual.costBasis, lastUpdated := manual.updatedAt }

/-- Collects a list of optional values, failing on the first missing one. -/
def allSome {α : Type} : List (Option α) → Option (List α)
  | [] => some []
  | none :: _ => none
  | some a :: rest => (allSome rest).map (fun l => a :: l)

/-- Embeds server.js mergedPositions: Plaid rows first, then manual rows, in
store order. Reading a field of a null manualInvestments entry throws a
TypeError in JavaScript; that is modelled by returning none. -/
def mergedPositions (db : Db) : Option (List MergedRow) :=
  match allSome db.manualInvestments with
  | none => none
  | some manuals => some (db.plaidHoldings.map plaidRow ++ manuals.map manualRow)

/-- Embeds server.js groupBy: buckets the toNumber of each row value under
the row key, falsy keys under the Unknown bucket. The JavaScript accumulator
object is modelled as a total function from bucket name to accumulated sum. -/
def groupByKey (rows : List MergedRow) (key : MergedRow → String) : String → ℚ :=
  rows.foldl
    (fun acc row =>
      let bucket := if key row = "" then ("Unknown") else key row
      fun b => if b = bucket then acc b + toNumber row.value else acc b)
    (fun _ => 0)

/-- The body of a successful GET /api/portfolio response. -/
structure PortfolioView where
  totalValue : ℚ
  positions : List MergedRow
  breakdownBySource : String → ℚ
  breakdownByAccount : String → ℚ
  lastPlaidSyncAt : Option String

/-- Embeds the GET /api/portfolio handler; the TypeError thrown on a null
manual record surfaces as an error response. -/
def portfolioView (db : Db) : Except String PortfolioView :=
  match mergedPositions db with
  | none => Except.error ("TypeError: cannot read properties of null")
  | some positions =>
    Except.ok
      { totalValue := positions.foldl (fun sum row => sum + toNumber row.value) 0,
        positions := positions,
        breakdownBySource := groupByKey positions (fun row => row.source),
        breakdownByAccount := groupByKey positions (fun row => row.account),
        lastPlaidSyncAt := db.lastSyncAt }

/-- An account object inside a Plaid investmentsHoldingsGet response. -/
structure ProviderAccount where
  account_id : String
  name : Option String
  deriving DecidableEq

/-- A security object inside a Plaid investmentsHoldingsGet response. -/
structure ProviderSecurity where
  security_id : String
  ticker_symbol : Option String
  name : Option String
  deriving DecidableEq

/-- A raw holding inside a Plaid investmentsHoldingsGet response. -/
structure ProviderHolding where
  account_id : String
  security_id : String
  quantity : JsNum
  institution_price : JsNum
  institution_value : JsNum
  cost_basis : JsNum
  deriving DecidableEq

/-- The data of one Plaid investmentsHoldingsGet response. -/
structure HoldingsResponse where
  accounts : List ProviderAccount
  securities : List ProviderSecurity
  holdings : List ProviderHolding
  deriving DecidableEq

/-- Embeds lookup in a map built by Object.fromEntries, where a later entry
with the same key overwrites an earlier one. -/
def lookupLast {α : Type} (key : α → String) (l : List α) (k : String) : Option α :=
  l.reverse.find? (fun a => key a = k)

/-- The holding identifier template of the sync handler:
item id, provider account id and provider security id joined by colons. -/
def canonicalId (itemId accountId securityId : String) : String :=
  itemId ++ ":" ++ accountId ++ ":" ++ securityId

/-- Embeds the inner loop body of POST /api/sync/plaid: resolve the account
and security of one raw holding (missing lookups fall back to the item label
or sentinel strings) and build the canonical holding, stamped with the
sync-time timestamp. -/
def resolveHolding (item : PlaidItem) (now : String) (resp : HoldingsResponse)
    (holding : ProviderHolding) : PlaidHolding :=
  let account := lookupLast (fun a => a.account_id) resp.accounts holding.account_id
  let security := lookupLast (fun s => s.security_id) resp.securities holding.security_id
  { id := canonicalId item.id holding.account_id holding.security_id,
    itemId := item.id,
    accountName := jsOrStr (account.bind (fun a => a.name)) item.institutionName,
    symbol := jsOrStr (security.bind (fun s => s.ticker_symbol)) ("N/A"),
    name := jsOrStr (security.bind (fun s => s.name)) ("Unknown security"),
    quantity := some (toNumber holding.quantity),
    price := some (toNumber holding.institution_price),
    value := some (toNumber holding.institution_value),
    costBasis := some (toNumber holding.cost_basis),
    lastUpdated := now }

/-- Embeds the item loop of POST /api/sync/plaid: fetch each item's holdings
in order, aborting at the first provider error; the provider is modelled as a
function from access token to response-or-error. -/
def syncHoldingsForItems (now : String) (fetch : String → Except String HoldingsResponse) :
    List PlaidItem → Except String (List PlaidHolding)
  | [] => Except.ok []
  | item :: rest =>
    match fetch item.accessToken with
    | Except.error e => Except.error e
    | Except.ok resp =>
      match syncHoldingsForItems now fetch rest with
      | Except.error e => Except.error e
      | Except.ok more => Except.ok (resp.holdings.map (resolveHolding item now resp) ++ more)

/-- Embeds POST /api/sync/plaid as a state-passing operation: on success the
store's holdings are fully replaced and lastSyncAt updated; on any provider
error the store is left untouched and the error is surfaced. -/
def syncPlaidOp (now : String) (fetch : String → Except String HoldingsResponse)
    (db : Db) : Db × Except String (Nat × String) :=
  match syncHoldingsForItems now fetch db.plaidItems with
  | Except.error e => (db, Except.error e)
  | Except.ok holdings =>
    ({ db with plaidHoldings := holdings, lastSyncAt := some now },
     Except.ok (holdings.length, now))

/-- Embeds POST /api/manual-investments: the handler rejects only when a raw
field is missing or empty before trimming; otherwise it pushes the result of
normalizeManualEntry — possibly null — into the store. -/
def addManualOp (freshId now : String) (raw : RawManualEntry) (db : Db) :
    Db × Except String (Option ManualRecord) :=
  if jsOrStr raw.account ("") = "" ∨ jsOrStr raw.symbol ("") = "" ∨
      jsOrStr raw.name ("") = "" then
    (db, Except.error ("account, symbol, and name are required."))
  else
    let entry := normalizeManualEntry freshId now raw
    ({ db with manualInvestments := db.manualInvestments ++ [entry] }, Except.ok entry)

/-- The accepted entries of a batch import: each row normalized independently
(with its own fresh identifier), rejected rows dropped. -/
def acceptedEntries (idGen : Nat → String) (now : String) (rows : List RawManualEntry) :
    List ManualRecord :=
  (rows.mapIdx (fun i row => normalizeManualEntry (idGen i) now row)).filterMap id

/-- Embeds POST /api/manual-investments/import: reject an empty batch, drop
invalid rows, reject when nothing survives, otherwise append the accepted
records and report their count and contents. -/
def importManualOp (idGen : Nat → String) (now : String) (rows : List RawManualEntry)
    (db : Db) : Db × Except String (Nat × List ManualRecord) :=
  if rows.length = 0 then
    (db, Except.error ("rows array is required."))
  else
    let entries := acceptedEntries idGen now rows
    if entries.length = 0 then
      (db, Except.error ("No valid rows found. Each row needs account, symbol, and name."))
    else
      ({ db with manualInvestments := db.manualInvestments ++ entries.map some },
       Except.ok (entries.length, entries))

/-- One spreadsheet cell: the payload rows mix strings and numbers. -/
inductive Cell where
  | str : String → Cell
  | num : JsNum → Cell
  deriving DecidableEq

/-- The literal header row of the Google Sheets payload. -/
def headerRow : List Cell :=
  [Cell.str ("Source"), Cell.str ("Account"), Cell.str ("Symbol"), Cell.str ("Name"),
   Cell.str ("Quantity"), Cell.str ("Price"), Cell.str ("Value"), Cell.str ("Cost Basis"),
   Cell.str ("Last Updated")]

/-- The nine cells written for one merged position, in column order. -/
def positionCells (p : MergedRow) : List Cell :=
  [Cell.str p.source, Cell.str p.account, Cell.str p.symbol, Cell.str p.name,
   Cell.num p.quantity, Cell.num p.price, Cell.num p.value, Cell.num p.costBasis,
   Cell.str p.lastUpdated]

/-- The two environment variables the sheets handler requires. -/
structure SheetsConfig where
  googleServiceAccountJson : Option String
  googleSheetId : Option String

/-- Embeds POST /api/google-sheets/sync up to the remote write: precondition
check on the configuration, then the payload pushed to the spreadsheet and
the rows-written count returned to the caller. -/
def googleSheetsSyncOp (cfg : SheetsConfig) (db : Db) :
    Except String (List (List Cell) × Nat) :=
  if jsOrStr cfg.googleServiceAccountJson ("") = "" ∨ jsOrStr cfg.googleSheetId ("") = "" then
    Except.error ("Missing GOOGLE_SERVICE_ACCOUNT_JSON or GOOGLE_SHEET_ID.")
  else
    match mergedPositions db with
    | none => Except.error ("TypeError: cannot read properties of null")
    | some positions =>
      let rows := headerRow :: positions.map positionCells
      Except.ok (rows, rows.length - 1)

/-- The trimmed non-blank lines of a CSV text, as computed by parseCsv in
public/app.js: split on newlines, trim every line (which also removes a
carriage return), drop falsy (empty) lines. -/
def nonBlankLines (csvText : String) : List String :=
  ((strSplit ('\n') csvText).map (fun line => strTrim line)).filter (fun line => line ≠ "")

/-- The comma-separated, individually trimmed fields of one CSV line. -/
def csvFields (line : String) : List String :=
  (strSplit (',') line).map (fun cell => strTrim cell)

/-- Embeds parseCsv from public/app.js. A parsed row object is modelled as
the list of (field name, cell) assignments made by the header loop, in header
order; a missing cell (and an empty one, via the falsy default) becomes the
empty string. -/
def parseCsv (csvText : String) : Except String (List (List (String × String))) :=
  match nonBlankLines csvText with
  | l0 :: l1 :: rest =>
    let headers := csvFields l0
    Except.ok ((l1 :: rest).map (fun line =>
      headers.mapIdx (fun index header => (header, (csvFields line).getD index ("")))))
  | _ => Except.error ("CSV must include a header row and at least one data row.")

/-! Concrete fixtures used by witnesses and counterexamples. -/

/-- An empty starter store, as created by ensureDb. -/
def emptyDb : Db :=
  { plaidItems := [], plaidHoldings := [], manualInvestments := [], lastSyncAt := none }

/-- A first linked Plaid item. -/
def exItem : PlaidItem :=
  { id := ("item-1"), institutionName := ("Broker One"), accessToken := ("tok-1"),
    createdAt := ("2024-01-01T00:00:00.000Z") }

/-- A second linked Plaid item. -/
def exItem2 : PlaidItem :=
  { id := ("item-2"), institutionName := ("Broker Two"), accessToken := ("tok-2"),
    createdAt := ("2024-01-02T00:00:00.000Z") }

/-- One raw provider holding. -/
def exProviderHolding : ProviderHolding :=
  { account_id := ("acc-1"), security_id := ("sec-1"), quantity := some 2,
    institution_price := some 10, institution_value := some 20, cost_basis := some 15 }

/-- A well-formed provider response with a single holding. -/
def exResp : HoldingsResponse :=
  { accounts := [{ account_id := ("acc-1"), name := some ("Brokerage account") }],
    securities := [{ security_id := ("sec-1"), ticker_symbol := some ("VOO"),
                     name := some ("Vanguard Index") }],
    holdings := [exProviderHolding] }

/-- A provider that always answers with exResp. -/
def exFetch : String → Except String HoldingsResponse := fun _ => Except.ok exResp

/-- A provider that fails for every token except tok-1. -/
def exFetchFail : String → Except String HoldingsResponse := fun t =>
  if t = ("tok-1") then Except.ok exResp else Except.error ("provider down")

/-- A provider whose response repeats the same (account, security) holding. -/
def dupFetch : String → Except String HoldingsResponse := fun _ =>
  Except.ok { accounts := [], securities := [], holdings := [exProviderHolding, exProviderHolding] }

/-- A store with one linked item. -/
def exDb1 : Db :=
  { plaidItems := [exItem], plaidHoldings := [], manualInvestments := [], lastSyncAt := none }

/-- A store with two linked items. -/
def exDb2 : Db :=
  { plaidItems := [exItem, exItem2], plaidHoldings := [], manualInvestments := [],
    lastSyncAt := none }

/-- A stored manual record used by the portfolio and import witnesses. -/
def exManual : ManualRecord :=
  { id := ("man-1"), account := ("Savings"), symbol := ("GOLD"), name := ("Gold bars"),
    quantity := some 3, price := some 5, costBasis := some 12,
    updatedAt := ("2024-03-01T00:00:00.000Z") }

/-- A raw manual entry with padded strings and a non-finite price. -/
def exRaw : RawManualEntry :=
  { account := some (" a "), symbol := some (" vti "), name := some ("Index fund"),
    quantity := some 2, price := none, costBasis := some 3 }

/-- The record normalizeManualEntry produces from exRaw. -/
def exRec : ManualRecord :=
  { id := ("id-1"), account := ("a"), symbol := ("VTI"), name := ("Index fund"),
    quantity := some 2, price := some 0, costBasis := some 3,
    updatedAt := ("2024-05-01T00:00:00.000Z") }

/-! Claim theorems. -/

/-- Claim C1 (code bug evaluation): a manual-entry body whose account is a
whitespace-only string passes the handler's pre-trim requiredness check, so
the handler responds 201 with a null body and pushes a null placeholder into
manualInvestments — the claim says such input is rejected with a validation
error and the collection left unchanged. -/
theorem addManual_whitespace_pushes_null :
    addManualOp ("id-1") ("2024-05-01T00:00:00.000Z")
      { account := some (" "), symbol := some ("VOO"), name := some ("Vanguard Index"),
        quantity := some 1, price := some 2, costBasis := none }
      emptyDb
    = ({ plaidItems := [], plaidHoldings := [], manualInvestments := [none],
         lastSyncAt := none },
       Except.ok none) := by decide

/-- Claim C6: every record accepted by the normalizer carries the trimmed
account and name, the upper-cased trimmed symbol, and numeric fields equal to
the Number() coercion of the inputs with non-finite values replaced by 0 —
in particular every numeric field is a finite value (`some`). -/
theorem normalize_accepted_fields (freshId now : String) (raw : RawManualEntry)
    (r : ManualRecord) (h : normalizeManualEntry freshId now raw = some r) :
    r.account = strTrim (jsOrStr raw.account ("")) ∧
    r.symbol = strUpper (strTrim (jsOrStr raw.symbol (""))) ∧
    r.name = strTrim (jsOrStr raw.name ("")) ∧
    r.quantity = some (toNumber raw.quantity) ∧
    r.price = some (toNumber raw.price) ∧
    r.costBasis = some (toNumber raw.costBasis) ∧
    r.id = freshId ∧ r.updatedAt = now := by
  simp only [normalizeManualEntry] at h
  split at h
  · exact absurd h (by simp)
  · cases h
    exact ⟨rfl, rfl, rfl, rfl, rfl, rfl, rfl, rfl⟩

/-- Claim C6 witness: the theorem applied to a concrete accepted entry. -/
theorem normalize_accepted_fields_witness :
    exRec.account = strTrim (jsOrStr exRaw.account ("")) ∧
    exRec.symbol = strUpper (strTrim (jsOrStr exRaw.symbol (""))) ∧
    exRec.name = strTrim (jsOrStr exRaw.name ("")) ∧
    exRec.quantity = some (toNumber exRaw.quantity) ∧
    exRec.price = some (toNumber exRaw.price) ∧
    exRec.costBasis = some (toNumber exRaw.costBasis) ∧
    exRec.id = ("id-1") ∧ exRec.updatedAt = ("2024-05-01T00:00:00.000Z") :=
  normalize_accepted_fields ("id-1") ("2024-05-01T00:00:00.000Z") exRaw exRec (by decide)

/-- Claim C5: a non-empty import batch is normalized row by row with rejected
rows silently dropped; when nothing survives, the operation fails with a
validation error and the store is unchanged, otherwise exactly the accepted
records are appended and reported back with their count. -/
theorem import_batch_result (idGen : Nat → String) (now : String)
    (rows : List RawManualEntry) (db : Db) (hrows : rows ≠ []) :
    importManualOp idGen now rows db =
      (if acceptedEntries idGen now rows = [] then
        (db, Except.error ("No valid rows found. Each row needs account, symbol, and name."))
      else
        ({ db with manualInvestments :=
             db.manualInvestments ++ (acceptedEntries idGen now rows).map some },
         Except.ok ((acceptedEntries idGen now rows).length, acceptedEntries idGen now rows))) := by
  have h0 : ¬ rows.length = 0 := by simpa [List.length_eq_zero] using hrows
  simp only [importManualOp, if_neg h0]
  by_cases he : acceptedEntries idGen now rows = []
  · rw [if_pos (by simp [he]), if_pos he]
  · rw [if_neg (by simp [he]), if_neg he]

/-- The batch of the spec's worked example: one valid row, one row with an
empty account. -/
def exImportRows : List RawManualEntry :=
  [{ account := some ("A"), symbol := some ("x"), name := some ("X"),
     quantity := some 2, price := some 10, costBasis := none },
   { account := some (""), symbol := some ("y"), name := some ("Y"),
     quantity := none, price := none, costBasis := none }]

/-- Claim C5 witness: the theorem applied to the spec's example batch. -/
theorem import_batch_result_witness :
    importManualOp (fun _ => ("uuid-0")) ("2024-05-01T00:00:00.000Z") exImportRows emptyDb =
      (if acceptedEntries (fun _ => ("uuid-0")) ("2024-05-01T00:00:00.000Z") exImportRows = [] then
        (emptyDb, Except.error ("No valid rows found. Each row needs account, symbol, and name."))
      else
        ({ emptyDb with manualInvestments := emptyDb.manualInvestments ++
             (acceptedEntries (fun _ => ("uuid-0")) ("2024-05-01T00:00:00.000Z") exImportRows).map some },
         Except.ok ((acceptedEntries (fun _ => ("uuid-0")) ("2024-05-01T00:00:00.000Z") exImportRows).length,
           acceptedEntries (fun _ => ("uuid-0")) ("2024-05-01T00:00:00.000Z") exImportRows))) :=
  import_batch_result (fun _ => ("uuid-0")) ("2024-05-01T00:00:00.000Z") exImportRows emptyDb
    (by decide)

/-- Helper: as soon as one linked item's fetch fails, the whole sync loop
returns a provider error. -/
lemma syncHoldings_error_of_mem (now : String)
    (fetch : String → Except String HoldingsResponse) :
    ∀ items : List PlaidItem,
    (∃ item ∈ items, ∃ e, fetch item.accessToken = Except.error e) →
    ∃ e, syncHoldingsForItems now fetch items = Except.error e := by
  intro items
  induction items with
  | nil =>
    rintro ⟨item, hmem, _⟩
    exact absurd hmem (List.not_mem_nil item)
  | cons item rest ih =>
    rintro ⟨i, hmem, e, he⟩
    cases hf : fetch item.accessToken with
    | error e2 => exact ⟨e2, by simp [syncHoldingsForItems, hf]⟩
    | ok resp =>
      have hrest : ∃ i ∈ rest, ∃ e, fetch i.accessToken = Except.error e := by
        rcases List.mem_cons.mp hmem with rfl | hmem2
        · rw [hf] at he
          exact absurd he (by simp)
        · exact ⟨i, hmem2, e, he⟩
      obtain ⟨e3, he3⟩ := ih hrest
      exact ⟨e3, by simp [syncHoldingsForItems, hf, he3]⟩

/-- Claim C2: when any linked account's provider fetch fails, the sync
operation answers with an error and the persisted store — holdings,
lastSyncAt and all — is exactly its pre-sync value. -/
theorem sync_provider_error_leaves_store (now : String)
    (fetch : String → Except String HoldingsResponse) (db : Db)
    (hfail : ∃ item ∈ db.plaidItems, ∃ e, fetch item.accessToken = Except.error e) :
    ∃ e, syncPlaidOp now fetch db = (db, Except.error e) := by
  obtain ⟨e, he⟩ := syncHoldings_error_of_mem now fetch db.plaidItems hfail
  exact ⟨e, by simp [syncPlaidOp, he]⟩

/-- Claim C2 witness: two linked items, the second fetch fails, the store is
returned unchanged. -/
theorem sync_provider_error_leaves_store_witness :
    ∃ e, syncPlaidOp ("2024-06-01T00:00:00.000Z") exFetchFail exDb2 =
      (exDb2, Except.error e) :=
  sync_provider_error_leaves_store ("2024-06-01T00:00:00.000Z") exFetchFail exDb2
    ⟨exItem2, by decide, ⟨("provider down"), by decide⟩⟩

/-- Claim C10: a successful sync rewrites only plaidHoldings and lastSyncAt;
the linked items and the manual investments are exactly as before. -/
theorem sync_preserves_items_and_manual (now : String)
    (fetch : String → Except String HoldingsResponse) (db db2 : Db) (ans : Nat × String)
    (h : syncPlaidOp now fetch db = (db2, Except.ok ans)) :
    db2.plaidItems = db.plaidItems ∧ db2.manualInvestments = db.manualInvestments := by
  unfold syncPlaidOp at h
  split at h
  · injection h with h1 h2
    injection h2
  · injection h with h1 h2
    rw [← h1]
    exact ⟨rfl, rfl⟩

/-- The sync timestamp used by the success fixtures. -/
def exSyncTime : String := ("2024-06-01T00:00:00.000Z")

/-- The canonical holding a sync of exDb1 against exFetch produces. -/
def exSyncedHolding : PlaidHolding :=
  { id := ("item-1:acc-1:sec-1"), itemId := ("item-1"),
    accountName := ("Brokerage account"), symbol := ("VOO"), name := ("Vanguard Index"),
    quantity := some 2, price := some 10, value := some 20, costBasis := some 15,
    lastUpdated := exSyncTime }

/-- The store exDb1 after a successful sync at exSyncTime. -/
def exDb1Synced : Db :=
  { plaidItems := [exItem], plaidHoldings := [exSyncedHolding], manualInvestments := [],
    lastSyncAt := some exSyncTime }

/-- Claim C10 witness: the theorem applied to a concrete successful sync. -/
theorem sync_preserves_items_and_manual_witness :
    exDb1Synced.plaidItems = exDb1.plaidItems ∧
    exDb1Synced.manualInvestments = exDb1.manualInvestments :=
  sync_preserves_items_and_manual exSyncTime exFetch exDb1 exDb1Synced (1, exSyncTime)
    (by decide)

/-- Claim C7: when both configuration values are present, the sheets sync
pushes the literal header row followed by one nine-cell row per merged
position and reports a rows-written count equal to the number of positions
(header excluded). -/
theorem sheets_payload_shape (cfg : SheetsConfig) (db : Db) (positions : List MergedRow)
    (hjson : jsOrStr cfg.googleServiceAccountJson ("") ≠ "")
    (hid : jsOrStr cfg.googleSheetId ("") ≠ "")
    (hpos : mergedPositions db = some positions) :
    googleSheetsSyncOp cfg db =
      Except.ok (headerRow :: positions.map positionCells, positions.length) := by
  simp only [googleSheetsSyncOp, hpos]
  rw [if_neg (not_or.mpr ⟨hjson, hid⟩)]
  simp

/-- The sheets configuration used by the witness. -/
def exCfg : SheetsConfig :=
  { googleServiceAccountJson := some ("svc-json"), googleSheetId := some ("sheet-1") }

/-- Claim C7 witness: the theorem applied to a store with one position. -/
theorem sheets_payload_shape_witness :
    googleSheetsSyncOp exCfg exDb1Synced =
      Except.ok (headerRow :: ([plaidRow exSyncedHolding]).map positionCells,
        ([plaidRow exSyncedHolding]).length) :=
  sheets_payload_shape exCfg exDb1Synced ([plaidRow exSyncedHolding])
    (by decide) (by decide) (by decide)

/-- Helper: collecting a list of present values succeeds with the values. -/
lemma allSome_map_some {α : Type} (l : List α) : allSome (l.map some) = some l := by
  induction l with
  | nil => rfl
  | cons a t ih => simp [allSome, ih]

/-- Helper: coercing a JavaScript product to a number agrees with the product
of the coercions, every non-finite factor counting as 0. -/
lemma toNumber_jsMul (a b : JsNum) : toNumber (jsMul a b) = toNumber a * toNumber b := by
  cases a <;> cases b <;> simp [jsMul, toNumber]

/-- Helper: the portfolio reduce is the sum of the coerced row values. -/
lemma foldl_add_toNumber (l : List MergedRow) (a : ℚ) :
    l.foldl (fun sum row => sum + toNumber row.value) a =
      a + (l.map (fun row => toNumber row.value)).sum := by
  induction l generalizing a with
  | nil => simp
  | cons r t ih => simp [List.foldl_cons, ih, add_assoc]

/-- Helper: a Plaid merged row carries the stored holding value verbatim. -/
lemma plaidRow_value (h : PlaidHolding) : (plaidRow h).value = h.value := rfl

/-- Helper: a manual merged row derives its value as quantity times price. -/
lemma manualRow_value (m : ManualRecord) :
    (manualRow m).value = jsMul m.quantity m.price := rfl

/-- Claim C3: on any store whose manual list holds no null placeholder, the
portfolio total equals the sum of the coerced stored holding values plus the
sum of coerced quantity times coerced price over the manual records. -/
theorem portfolio_total_value_eq (db : Db) (manuals : List ManualRecord)
    (hm : db.manualInvestments = manuals.map some) :
    ∃ p, portfolioView db = Except.ok p ∧
      p.totalValue =
        (db.plaidHoldings.map (fun h => toNumber h.value)).sum +
        (manuals.map (fun m => toNumber m.quantity * toNumber m.price)).sum := by
  have hmerged : mergedPositions db =
      some (db.plaidHoldings.map plaidRow ++ manuals.map manualRow) := by
    simp [mergedPositions, hm, allSome_map_some]
  unfold portfolioView
  rw [hmerged]
  refine ⟨_, rfl, ?_⟩
  show (db.plaidHoldings.map plaidRow ++ manuals.map manualRow).foldl
      (fun sum row => sum + toNumber row.value) 0 = _
  rw [foldl_add_toNumber, zero_add, List.map_append, List.sum_append]
  congr 1
  · rw [List.map_map]
    rfl
  · rw [List.map_map]
    have hcomp : ((fun row => toNumber row.value) ∘ manualRow) =
        fun m : ManualRecord => toNumber m.quantity * toNumber m.price := by
      funext m
      show toNumber (manualRow m).value = _
      rw [manualRow_value, toNumber_jsMul]
    rw [hcomp]

/-- A store holding one canonical holding and one manual record. -/
def exDb3 : Db :=
  { plaidItems := [], plaidHoldings := [exSyncedHolding],
    manualInvestments := [some exManual], lastSyncAt := none }

/-- Claim C3 witness: the theorem applied to a concrete mixed store. -/
theorem portfolio_total_value_eq_witness :
    ∃ p, portfolioView exDb3 = Except.ok p ∧
      p.totalValue =
        (exDb3.plaidHoldings.map (fun h => toNumber h.value)).sum +
        (([exManual]).map (fun m => toNumber m.quantity * toNumber m.price)).sum :=
  portfolio_total_value_eq exDb3 ([exManual]) (by decide)

/-- Claim C8: a CSV text with fewer than two non-blank lines is a format
error; otherwise the first non-blank line provides the field names and every
later non-blank line becomes a row pairing each field name, by position, with
the corresponding trimmed cell, a missing cell defaulting to the empty
string. -/
theorem parseCsv_header_positional (csvText : String) :
    ((nonBlankLines csvText).length < 2 →
      parseCsv csvText =
        Except.error ("CSV must include a header row and at least one data row.")) ∧
    (∀ l0 l1 rest, nonBlankLines csvText = l0 :: l1 :: rest →
      ∃ rows, parseCsv csvText = Except.ok rows ∧
        rows.length = rest.length + 1 ∧
        ∀ k : Nat, rows[k]? = ((l1 :: rest)[k]?).map (fun line =>
          (csvFields l0).mapIdx
            (fun index header => (header, (csvFields line).getD index (""))))) := by
  constructor
  · intro hlen
    rcases hnb : nonBlankLines csvText with _ | ⟨a, _ | ⟨b, t⟩⟩
    · simp [parseCsv, hnb]
    · simp [parseCsv, hnb]
    · rw [hnb] at hlen
      simp at hlen
      omega
  · intro l0 l1 rest hnb
    refine ⟨(l1 :: rest).map (fun line =>
        (csvFields l0).mapIdx
          (fun index header => (header, (csvFields line).getD index ("")))), ?_, ?_, ?_⟩
    · simp [parseCsv, hnb]
    · simp
    · intro k
      rw [List.getElem?_map]

/-- Claim C8 witness: the theorem applied to a two-line CSV text. -/
theorem parseCsv_header_positional_witness :
    ∃ rows, parseCsv ("account,symbol\nIRA, vti ") = Except.ok rows ∧
      rows.length = 0 + 1 ∧
      ∀ k : Nat, rows[k]? = (([("IRA, vti")] : List String)[k]?).map (fun line =>
        (csvFields ("account,symbol")).mapIdx
          (fun index header => (header, (csvFields line).getD index ("")))) :=
  (parseCsv_header_positional ("account,symbol\nIRA, vti ")).2
    ("account,symbol") ("IRA, vti") [] (by decide)

/-- Blanks out the sync-time stamp of a canonical holding, leaving the
provider-derived fields and the identifier. -/
def eraseStamp (g : PlaidHolding) : PlaidHolding := { g with lastUpdated := ("") }

/-- Helper: rerunning the sync loop at a different wall-clock time yields the
same holdings except for the stamped time. -/
lemma syncHoldings_ok_time_invariant (now1 now2 : String)
    (fetch : String → Except String HoldingsResponse) :
    ∀ items hs1, syncHoldingsForItems now1 fetch items = Except.ok hs1 →
    ∃ hs2, syncHoldingsForItems now2 fetch items = Except.ok hs2 ∧
      hs2.map eraseStamp = hs1.map eraseStamp := by
  intro items
  induction items with
  | nil =>
    intro hs1 h
    injection h with h
    exact ⟨[], rfl, by rw [← h]⟩
  | cons item rest ih =>
    intro hs1 h
    cases hf : fetch item.accessToken with
    | error e =>
      simp [syncHoldingsForItems, hf] at h
    | ok resp =>
      simp only [syncHoldingsForItems, hf] at h
      cases hr : syncHoldingsForItems now1 fetch rest with
      | error e => simp [hr] at h
      | ok more =>
        simp only [hr] at h
        injection h with h
        obtain ⟨hs2r, h2r, herase⟩ := ih more hr
        refine ⟨resp.holdings.map (resolveHolding item now2 resp) ++ hs2r, ?_, ?_⟩
        · simp [syncHoldingsForItems, hf, h2r]
        · rw [← h, List.map_append, List.map_append, herase]
          congr 1
          rw [List.map_map, List.map_map]
          rfl

/-- Claim C4 (amended): two successive syncs against identical provider
responses yield holdings with the same identifiers and the same values in
every field other than the last-refreshed stamp, which records each sync's
own time. -/
theorem sync_twice_identical_up_to_timestamp (now1 now2 : String)
    (fetch : String → Except String HoldingsResponse) (db db1 : Db) (ans1 : Nat × String)
    (h1 : syncPlaidOp now1 fetch db = (db1, Except.ok ans1)) :
    ∃ db2 ans2, syncPlaidOp now2 fetch db1 = (db2, Except.ok ans2) ∧
      db2.plaidHoldings.map eraseStamp = db1.plaidHoldings.map eraseStamp ∧
      db2.plaidHoldings.map (fun g => g.id) = db1.plaidHoldings.map (fun g => g.id) := by
  unfold syncPlaidOp at h1
  cases hr : syncHoldingsForItems now1 fetch db.plaidItems with
  | error e =>
    rw [hr] at h1
    exact absurd h1 (by simp)
  | ok hs1 =>
    rw [hr] at h1
    injection h1 with hdb hans
    obtain ⟨hs2, h2, herase⟩ := syncHoldings_ok_time_invariant now1 now2 fetch db.plaidItems hs1 hr
    have hitems : db1.plaidItems = db.plaidItems := by rw [← hdb]
    have hh1 : db1.plaidHoldings = hs1 := by rw [← hdb]
    refine ⟨{ db1 with plaidHoldings := hs2, lastSyncAt := some now2 },
      (hs2.length, now2), ?_, ?_, ?_⟩
    · unfold syncPlaidOp
      rw [hitems, h2]
    · show hs2.map eraseStamp = _
      rw [hh1, herase]
    · show hs2.map (fun g => g.id) = _
      have hid2 : hs2.map (fun g => g.id) = (hs2.map eraseStamp).map (fun g => g.id) := by
        rw [List.map_map]
        rfl
      have hid1 : hs1.map (fun g => g.id) = (hs1.map eraseStamp).map (fun g => g.id) := by
        rw [List.map_map]
        rfl
      rw [hh1, hid2, hid1, herase]

/-- Claim C4 counterexample: both syncs succeed on identical provider
responses, yet the stored holdings differ between the two passes because each
pass stamps its own sync time into lastUpdated. -/
theorem sync_twice_not_identical :
    (syncPlaidOp ("2024-01-01T00:00:00.000Z") exFetch exDb1).2 =
      Except.ok (1, ("2024-01-01T00:00:00.000Z")) ∧
    (syncPlaidOp ("2024-01-01T00:00:01.000Z") exFetch
        (syncPlaidOp ("2024-01-01T00:00:00.000Z") exFetch exDb1).1).2 =
      Except.ok (1, ("2024-01-01T00:00:01.000Z")) ∧
    (syncPlaidOp ("2024-01-01T00:00:01.000Z") exFetch
        (syncPlaidOp ("2024-01-01T00:00:00.000Z") exFetch exDb1).1).1.plaidHoldings ≠
      (syncPlaidOp ("2024-01-01T00:00:00.000Z") exFetch exDb1).1.plaidHoldings :=
  ⟨by decide, by decide, by decide⟩

/-- Claim C4 witness: the amended theorem applied to a concrete first sync. -/
theorem sync_twice_identical_up_to_timestamp_witness :
    ∃ db2 ans2, syncPlaidOp ("2024-06-02T00:00:00.000Z") exFetch exDb1Synced =
      (db2, Except.ok ans2) ∧
      db2.plaidHoldings.map eraseStamp = exDb1Synced.plaidHoldings.map eraseStamp ∧
      db2.plaidHoldings.map (fun g => g.id) = exDb1Synced.plaidHoldings.map (fun g => g.id) :=
  sync_twice_identical_up_to_timestamp exSyncTime ("2024-06-02T00:00:00.000Z") exFetch
    exDb1 exDb1Synced (1, exSyncTime) (by decide)

/-- A string that avoids the colon used as separator in holding ids. -/
def colonFree (s : String) : Prop := (':') ∉ s.data

instance (s : String) : Decidable (colonFree s) :=
  inferInstanceAs (Decidable ((':') ∉ s.data))

/-- Helper: a colon-separated concatenation determines its colon-free prefix
and its remainder uniquely. -/
lemma sep_split_unique {a1 a2 r1 r2 : List Char}
    (h1 : (':') ∉ a1) (h2 : (':') ∉ a2)
    (h : a1 ++ (':') :: r1 = a2 ++ (':') :: r2) : a1 = a2 ∧ r1 = r2 := by
  induction a1 generalizing a2 with
  | nil =>
    cases a2 with
    | nil =>
      simp only [List.nil_append] at h
      injection h with hc hr
      exact ⟨rfl, hr⟩
    | cons b bs =>
      simp only [List.nil_append, List.cons_append] at h
      injection h with hc hr
      exact absurd (by rw [← hc]; exact List.mem_cons_self _ _ : (':') ∈ b :: bs) h2
  | cons c cs ih =>
    cases a2 with
    | nil =>
      simp only [List.cons_append, List.nil_append] at h
      injection h with hc hr
      exact absurd (by rw [hc]; exact List.mem_cons_self _ _ : (':') ∈ c :: cs) h1
    | cons b bs =>
      simp only [List.cons_append] at h
      injection h with hc hr
      have hcs : (':') ∉ cs := fun hm => h1 (List.mem_cons_of_mem _ hm)
      have hbs : (':') ∉ bs := fun hm => h2 (List.mem_cons_of_mem _ hm)
      obtain ⟨he, hr2⟩ := ih hcs hbs hr
      exact ⟨by rw [hc, he], hr2⟩

/-- Helper: the character data of a composed holding id. -/
lemma canonicalId_data (a b c : String) :
    (canonicalId a b c).data = a.data ++ (':') :: (b.data ++ (':') :: c.data) := by
  simp [canonicalId, String.data_append, List.append_assoc]

/-- Helper: with colon-free item and account components, equal composed ids
force equal components. -/
lemma canonicalId_inj {a1 b1 c1 a2 b2 c2 : String}
    (ha1 : colonFree a1) (ha2 : colonFree a2) (hb1 : colonFree b1) (hb2 : colonFree b2)
    (h : canonicalId a1 b1 c1 = canonicalId a2 b2 c2) :
    a1 = a2 ∧ b1 = b2 ∧ c1 = c2 := by
  have hd := congrArg String.data h
  rw [canonicalId_data, canonicalId_data] at hd
  obtain ⟨he1, he2⟩ := sep_split_unique ha1 ha2 hd
  obtain ⟨he3, he4⟩ := sep_split_unique hb1 hb2 he2
  exact ⟨String.ext he1, String.ext he3, String.ext he4⟩

/-- Helper: with colon-free first components, equal composed ids force equal
first components. -/
lemma canonicalId_inj_fst {a1 b1 c1 a2 b2 c2 : String}
    (ha1 : colonFree a1) (ha2 : colonFree a2)
    (h : canonicalId a1 b1 c1 = canonicalId a2 b2 c2) : a1 = a2 := by
  have hd := congrArg String.data h
  rw [canonicalId_data, canonicalId_data] at hd
  exact String.ext (sep_split_unique ha1 ha2 hd).1

/-- Helper: every holding the sync loop produces comes from one linked item
and one raw holding of that item's provider response. -/
lemma syncHoldings_mem_structure (now : String)
    (fetch : String → Except String HoldingsResponse) :
    ∀ items hs, syncHoldingsForItems now fetch items = Except.ok hs →
    ∀ g ∈ hs, ∃ item ∈ items, ∃ resp, fetch item.accessToken = Except.ok resp ∧
      ∃ raw ∈ resp.holdings, g = resolveHolding item now resp raw := by
  intro items
  induction items with
  | nil =>
    intro hs h g hg
    injection h with h
    rw [← h] at hg
    exact absurd hg (List.not_mem_nil g)
  | cons item rest ih =>
    intro hs h g hg
    cases hf : fetch item.accessToken with
    | error e => simp [syncHoldingsForItems, hf] at h
    | ok resp =>
      simp only [syncHoldingsForItems, hf] at h
      cases hr : syncHoldingsForItems now fetch rest with
      | error e => simp [hr] at h
      | ok more =>
        simp only [hr] at h
        injection h with h
        rw [← h] at hg
        rcases List.mem_append.mp hg with hg1 | hg2
        · obtain ⟨raw, hraw, hres⟩ := List.mem_map.mp hg1
          exact ⟨item, List.mem_cons_self _ _, resp, hf, raw, hraw, hres.symm⟩
        · obtain ⟨item2, hmem2, resp2, hf2, raw2, hraw2, heq2⟩ := ih more hr g hg2
          exact ⟨item2, List.mem_cons_of_mem _ hmem2, resp2, hf2, raw2, hraw2, heq2⟩

/-- Helper: under colon-free, duplicate-free keys, the ids produced by one
sync pass are pairwise distinct. -/
lemma syncHoldings_ids_nodup (now : String)
    (fetch : String → Except String HoldingsResponse) :
    ∀ items hs, syncHoldingsForItems now fetch items = Except.ok hs →
    (items.map (fun i => i.id)).Nodup →
    (∀ item ∈ items, colonFree item.id) →
    (∀ item ∈ items, ∀ resp, fetch item.accessToken = Except.ok resp →
      (∀ raw ∈ resp.holdings, colonFree raw.account_id) ∧
      (resp.holdings.map (fun raw => (raw.account_id, raw.security_id))).Nodup) →
    (hs.map (fun g => g.id)).Nodup := by
  intro items
  induction items with
  | nil =>
    intro hs h _ _ _
    injection h with h
    rw [← h]
    simp
  | cons item rest ih =>
    intro hs h hnd hfree hresp
    cases hf : fetch item.accessToken with
    | error e => simp [syncHoldingsForItems, hf] at h
    | ok resp =>
      simp only [syncHoldingsForItems, hf] at h
      cases hr : syncHoldingsForItems now fetch rest with
      | error e => simp [hr] at h
      | ok more =>
        simp only [hr] at h
        injection h with h
        rw [← h, List.map_append, List.nodup_append]
        obtain ⟨hacc, hpairs⟩ := hresp item (List.mem_cons_self _ _) resp hf
        have hfree_item : colonFree item.id := hfree item (List.mem_cons_self _ _)
        have hnd2 : (item.id :: rest.map (fun i => i.id)).Nodup := by
          simpa only [List.map_cons] using hnd
        obtain ⟨hhead, htail⟩ := List.nodup_cons.mp hnd2
        refine ⟨?_, ?_, ?_⟩
        · rw [List.map_map]
          have hco : (fun g => g.id) ∘ resolveHolding item now resp =
              (fun p : String × String => canonicalId item.id p.1 p.2) ∘
                (fun raw => (raw.account_id, raw.security_id)) := rfl
          rw [hco, ← List.map_map]
          refine List.Nodup.map_on ?_ hpairs
          intro p1 hp1 p2 hp2 hpeq
          obtain ⟨raw1, hraw1, hpr1⟩ := List.mem_map.mp hp1
          obtain ⟨raw2, hraw2, hpr2⟩ := List.mem_map.mp hp2
          have hfa : colonFree p1.1 := by
            rw [← hpr1]
            exact hacc raw1 hraw1
          have hfb : colonFree p2.1 := by
            rw [← hpr2]
            exact hacc raw2 hraw2
          obtain ⟨_, h2, h3⟩ := canonicalId_inj hfree_item hfree_item hfa hfb hpeq
          exact Prod.ext h2 h3
        · exact ih more hr htail
            (fun i hm => hfree i (List.mem_cons_of_mem _ hm))
            (fun i hm => hresp i (List.mem_cons_of_mem _ hm))
        · intro a ha1 ha2
          obtain ⟨g1, hg1, hga1⟩ := List.mem_map.mp ha1
          obtain ⟨g2, hg2, hga2⟩ := List.mem_map.mp ha2
          obtain ⟨raw1, hraw1, hres1⟩ := List.mem_map.mp hg1
          obtain ⟨item2, hmem2, resp2, hf2, raw2, hraw2, heq2⟩ :=
            syncHoldings_mem_structure now fetch rest more hr g2 hg2
          have hid1 : a = canonicalId item.id raw1.account_id raw1.security_id := by
            rw [← hga1, ← hres1]
            rfl
          have hid2 : a = canonicalId item2.id raw2.account_id raw2.security_id := by
            rw [← hga2, heq2]
            rfl
          have hfree2 : colonFree item2.id :=
            hfree item2 (List.mem_cons_of_mem _ hmem2)
          have heqid : item.id = item2.id :=
            canonicalId_inj_fst hfree_item hfree2 (hid1 ▸ hid2)
          exact hhead (heqid ▸ List.mem_map.mpr ⟨item2, hmem2, rfl⟩)

/-- Claim C9 (amended): every holding a successful sync stores has an
identifier composed deterministically from its linked-item id, provider
account id and provider security id; and those identifiers are pairwise
distinct provided the linked-item ids are pairwise distinct, the item and
provider account ids avoid the colon separator, and no provider response
repeats an (account id, security id) pair. -/
theorem sync_ids_canonical_and_distinct (now : String)
    (fetch : String → Except String HoldingsResponse) (db db2 : Db) (ans : Nat × String)
    (hsync : syncPlaidOp now fetch db = (db2, Except.ok ans))
    (hnd : (db.plaidItems.map (fun i => i.id)).Nodup)
    (hfree : ∀ item ∈ db.plaidItems, colonFree item.id)
    (hresp : ∀ item ∈ db.plaidItems, ∀ resp, fetch item.accessToken = Except.ok resp →
      (∀ raw ∈ resp.holdings, colonFree raw.account_id) ∧
      (resp.holdings.map (fun raw => (raw.account_id, raw.security_id))).Nodup) :
    (∀ g ∈ db2.plaidHoldings, ∃ item ∈ db.plaidItems, ∃ resp,
        fetch item.accessToken = Except.ok resp ∧ ∃ raw ∈ resp.holdings,
          g = resolveHolding item now resp raw ∧
          g.id = canonicalId item.id raw.account_id raw.security_id) ∧
    (db2.plaidHoldings.map (fun g => g.id)).Nodup := by
  unfold syncPlaidOp at hsync
  cases hr : syncHoldingsForItems now fetch db.plaidItems with
  | error e =>
    rw [hr] at hsync
    exact absurd hsync (by simp)
  | ok hs =>
    rw [hr] at hsync
    injection hsync with hdb hans
    have hh : db2.plaidHoldings = hs := by rw [← hdb]
    constructor
    · intro g hg
      rw [hh] at hg
      obtain ⟨item, hmem, resp, hf, raw, hraw, heq⟩ :=
        syncHoldings_mem_structure now fetch db.plaidItems hs hr g hg
      refine ⟨item, hmem, resp, hf, raw, hraw, heq, ?_⟩
      rw [heq]
      rfl
    · rw [hh]
      exact syncHoldings_ids_nodup now fetch db.plaidItems hs hr hnd hfree hresp

/-- Claim C9 counterexample: a provider response that lists the same
(account, security) holding twice makes one sync pass store two holdings
with the very same identifier, so the produced identifiers are not pairwise
distinct. -/
theorem sync_duplicate_pair_id_collision :
    (syncPlaidOp exSyncTime dupFetch exDb1).2 = Except.ok (2, exSyncTime) ∧
    ¬ ((syncPlaidOp exSyncTime dupFetch exDb1).1.plaidHoldings.map (fun g => g.id)).Nodup :=
  ⟨by decide, by decide⟩

/-- Claim C9 witness: the amended theorem applied to a concrete sync whose
keys satisfy the distinctness side conditions. -/
theorem sync_ids_canonical_and_distinct_witness :
    (∀ g ∈ exDb1Synced.plaidHoldings, ∃ item ∈ exDb1.plaidItems, ∃ resp,
        exFetch item.accessToken = Except.ok resp ∧ ∃ raw ∈ resp.holdings,
          g = resolveHolding item exSyncTime resp raw ∧
          g.id = canonicalId item.id raw.account_id raw.security_id) ∧
    (exDb1Synced.plaidHoldings.map (fun g => g.id)).Nodup :=
  sync_ids_canonical_and_distinct exSyncTime exFetch exDb1 exDb1Synced (1, exSyncTime)
    (by decide) (by decide) (by decide)
    (by
      intro item hmem resp hf
      injection hf with hf
      subst hf
      exact ⟨by decide, by decide⟩)
